import Mathlib

/-!
Verification of the embedded-firmware repository: a shallow embedding of the
startup code (startup.cpp), the system core (system.cpp), the critical-section
guard (types.hpp) and the UART TX ring buffer (hal/uart.hpp) together with
theorems about the boot sequence, tick/delay arithmetic, register effects and
buffer capacity.

Machine integers are modelled as Nat with explicit reduction modulo 2^32 at
the points where 32-bit overflow matters.
-/

/-- Word size modulus for 32-bit unsigned arithmetic. -/
def U32_MOD : Nat := 2 ^ 32

/-- config.hpp: SYSTEM_CLOCK_HZ, the 168 MHz system clock constant. -/
def SYSTEM_CLOCK_HZ : Nat := 168000000

/-- config.hpp: TICK_RATE_HZ, the 1 kHz SysTick rate. -/
def TICK_RATE_HZ : Nat := 1000

/-- config.hpp: UART_BUFFER_SIZE, the TX ring buffer capacity. -/
def UART_BUFFER_SIZE : Nat := 256

/-- types.hpp: the Status error-code enumeration. -/
inductive Status where
  | Ok
  | Error
  | Busy
  | Timeout
  | InvalidArg
  | NotReady
  | NoMemory
  | NotFound
  | Permission
  | HwError
deriving DecidableEq, Repr

/-!
Critical-section primitives (types.hpp lines 98-123).  The PRIMASK register is
modelled as a Nat; mrs reads it, cpsid i sets it to 1, msr writes it back.
-/

/-- types.hpp disableInterrupts: returns the old PRIMASK and the new PRIMASK
state (cpsid i sets PRIMASK to 1). -/
def disableInterrupts (primask : Nat) : Nat × Nat := (primask, 1)

/-- types.hpp restoreInterrupts: msr primask writes the saved value. -/
def restoreInterrupts (saved _primask : Nat) : Nat := saved

/-- Two nested CriticalSection guards, constructed then destroyed in LIFO
order; returns (mask after the inner destructor, mask after the outer
destructor).  Each constructor saves the old mask with disableInterrupts and
each destructor restores its saved mask. -/
def nestedCriticalSections (p0 : Nat) : Nat × Nat :=
  let outer := disableInterrupts p0
  let inner := disableInterrupts outer.2
  let afterInner := restoreInterrupts inner.1 inner.2
  let afterOuter := restoreInterrupts outer.1 afterInner
  (afterInner, afterOuter)

/-!
System core registers touched by System::init (system.cpp).  Only the
registers the init path writes are carried in the state.
-/

/-- The memory-mapped registers written by System::init. -/
structure Regs where
  systCsr : Nat
  systRvr : Nat
  systCvr : Nat
  aircr : Nat
deriving DecidableEq, Repr

/-- system.cpp System::initClocks: the body is an empty placeholder. -/
def System.initClocks (r : Regs) : Regs := r

/-- system.cpp System::initSysTick: reload = SYSTEM_CLOCK_HZ / TICK_RATE_HZ - 1
into RVR, clear CVR, CSR = enable | interrupt | processor clock. -/
def System.initSysTick (r : Regs) : Regs :=
  let reloadValue := SYSTEM_CLOCK_HZ / TICK_RATE_HZ - 1
  { r with
    systRvr := reloadValue
    systCvr := 0
    systCsr := (1 <<< 0) ||| (1 <<< 1) ||| (1 <<< 2) }

/-- system.cpp System::initNvic: AIRCR = (0x5FA << 16) | (3 << 8). -/
def System.initNvic (r : Regs) : Regs :=
  { r with aircr := (0x5FA <<< 16) ||| (3 <<< 8) }

/-- system.cpp System::init: initClocks, initSysTick, initNvic, return Ok. -/
def System.init (r : Regs) : Status × Regs :=
  (Status.Ok, System.initNvic (System.initSysTick (System.initClocks r)))

/-- system.cpp System::getSystemClock: returns SYSTEM_CLOCK_HZ, reading no
state. -/
def System.getSystemClock (_r : Regs) : Nat := SYSTEM_CLOCK_HZ

/-!
Tick counter and delays (system.cpp).  s_tickCount is a u32 written only by
SysTick_Handler; it is modelled as a Nat kept below 2^32.
-/

/-- system.cpp SysTick_Handler: s_tickCount++ with 32-bit wraparound. -/
def SysTick_Handler (t : Nat) : Nat := (t + 1) % U32_MOD

/-- system.cpp System::getTicks: a single read of s_tickCount. -/
def System.getTicks (t : Nat) : Nat := t

/-- The tick counter value after n SysTick interrupts starting from t0. -/
def ticksAfter (t0 : Nat) : Nat → Nat
  | 0 => t0
  | n + 1 => SysTick_Handler (ticksAfter t0 n)

/-- Unsigned 32-bit subtraction a - b as computed by the C expression
(s_tickCount - start) on u32 operands. -/
def sub32 (a b : Nat) : Nat :=
  (a % U32_MOD + (U32_MOD - b % U32_MOD)) % U32_MOD

/-- system.cpp System::delayMs busy-wait loop: poll i reads tick value
(ticks i); the loop exits at the first poll where (now - start) >= ms.
Fuel bounds the number of polls so the function is total; none means the
fuel ran out before the exit condition held. -/
def delayMsLoop (ticks : Nat → Nat) (start ms : Nat) : Nat → Nat → Option Nat
  | _, 0 => none
  | i, fuel + 1 =>
    if ms ≤ sub32 (ticks i) start then some i
    else delayMsLoop ticks start ms (i + 1) fuel

/-- system.cpp System::delayMs: start is the tick value read on entry, ticks
enumerates the subsequent reads of s_tickCount; returns the index of the poll
at which the wait completes. -/
def System.delayMs (ticks : Nat → Nat) (start ms fuel : Nat) : Option Nat :=
  delayMsLoop ticks start ms 0 fuel

/-- system.cpp System::delayUs iteration count: the u32 expression
(SYSTEM_CLOCK_HZ / 1000000) * us / 4 where the multiplication is 32-bit
(SYSTEM_CLOCK_HZ is an unsigned long, 32 bits on the Cortex-M4 target), so
the product wraps modulo 2^32 before the division.  The while (cycles--)
loop then executes exactly this many nop iterations. -/
def delayUsCycles (us : Nat) : Nat :=
  SYSTEM_CLOCK_HZ / 1000000 * us % U32_MOD / 4

/-!
deepSleep (system.cpp lines 70-81): SCR |= (1 << 2), barrier + wfi,
SCR &= ~(1 << 2).  The u32 complement ~(1 << 2) is (2^32 - 1) xor (1 << 2).
-/

/-- The SCR value while asleep, after the handler sets SLEEPDEEP. -/
def deepSleepDuring (scr : Nat) : Nat := scr ||| (1 <<< 2)

/-- system.cpp System::deepSleep effect on SCR: set bit 2, then clear it
after wake. -/
def System.deepSleep (scr : Nat) : Nat :=
  deepSleepDuring scr &&& ((U32_MOD - 1) ^^^ (1 <<< 2))

/-!
Word-addressed memory operations shared by getUniqueId and the startup code.
For getUniqueId addresses are byte addresses of 32-bit words; for the startup
copy/zero loops, which advance uint32_t pointers one word at a time, addresses
are word indices.
-/

/-- Store value v at address a. -/
def writeWord (mem : Nat → Nat) (a v : Nat) : Nat → Nat :=
  fun x => if x = a then v else mem x

/-- system.cpp System::getUniqueId: id[0..2] receive the three words at the
factory device-ID base 0x1FFF7A10; mem is the physical word read at a byte
address, id is the caller's output array. -/
def System.getUniqueId (mem id : Nat → Nat) : Nat → Nat :=
  let id0 := writeWord id 0 (mem 0x1FFF7A10)
  let id1 := writeWord id0 1 (mem (0x1FFF7A10 + 4))
  writeWord id1 2 (mem (0x1FFF7A10 + 8))

/-!
Startup code (startup.cpp).  Memory is word-addressed (the copy and zero
loops advance uint32_t pointers); linker symbols are word indices.
-/

/-- The copy loop of Reset_Handler: n words from src to dst, reading and
writing one word per iteration exactly as the while (dst < _edata) loop
does. -/
def copyWords (mem : Nat → Nat) : Nat → Nat → Nat → (Nat → Nat)
  | _, _, 0 => mem
  | src, dst, n + 1 =>
    copyWords (writeWord mem dst (mem src)) (src + 1) (dst + 1) n

/-- The zero-fill loop of Reset_Handler: n words starting at dst set to 0. -/
def zeroWords (mem : Nat → Nat) : Nat → Nat → (Nat → Nat)
  | _, 0 => mem
  | dst, n + 1 => zeroWords (writeWord mem dst 0) (dst + 1) n

/-- The linker-script symbols consumed by Reset_Handler, as word indices. -/
structure LinkerLayout where
  sidata : Nat
  sdata : Nat
  edata : Nat
  sbss : Nat
  ebss : Nat
deriving DecidableEq, Repr

/-- The observable outcome of Reset_Handler: final memory, the constructor
pointers invoked in order, how many times main was called, and whether the
handler falls into the forever nop spin should main return. -/
structure BootResult where
  mem : Nat → Nat
  ctorCalls : List Nat
  mainCalls : Nat
  spinsForever : Bool

/-- startup.cpp Reset_Handler: copy .data from _sidata to [_sdata, _edata),
zero [_sbss, _ebss), run the preinit array then the init array in order,
call main once, then spin forever.  Constructors are identified by abstract
function-pointer values. -/
def Reset_Handler (L : LinkerLayout) (preinitArray initArray : List Nat)
    (mem0 : Nat → Nat) : BootResult :=
  let mem1 := copyWords mem0 L.sidata L.sdata (L.edata - L.sdata)
  let mem2 := zeroWords mem1 L.sbss (L.ebss - L.sbss)
  { mem := mem2
    ctorCalls := preinitArray ++ initArray
    mainCalls := 1
    spinsForever := true }

/-- One slot of the vector table: the initial stack pointer, a named handler
symbol, or a reserved (nullptr) entry. -/
inductive VectorEntry where
  | stackTop
  | handler (name : String)
  | reserved
deriving DecidableEq, Repr

/-- startup.cpp g_pfnVectors: the vector table, transcribed entry by entry. -/
def g_pfnVectors : List VectorEntry :=
  [ VectorEntry.stackTop
  , VectorEntry.handler "Reset_Handler"
  , VectorEntry.handler "NMI_Handler"
  , VectorEntry.handler "HardFault_Handler"
  , VectorEntry.handler "MemManage_Handler"
  , VectorEntry.handler "BusFault_Handler"
  , VectorEntry.handler "UsageFault_Handler"
  , VectorEntry.reserved
  , VectorEntry.reserved
  , VectorEntry.reserved
  , VectorEntry.reserved
  , VectorEntry.handler "SVC_Handler"
  , VectorEntry.handler "DebugMon_Handler"
  , VectorEntry.reserved
  , VectorEntry.handler "PendSV_Handler"
  , VectorEntry.handler "SysTick_Handler"
  , VectorEntry.handler "WWDG_IRQHandler"
  , VectorEntry.handler "PVD_IRQHandler"
  , VectorEntry.handler "TAMP_STAMP_IRQHandler"
  , VectorEntry.handler "RTC_WKUP_IRQHandler"
  , VectorEntry.handler "FLASH_IRQHandler"
  , VectorEntry.handler "RCC_IRQHandler"
  , VectorEntry.handler "EXTI0_IRQHandler"
  , VectorEntry.handler "EXTI1_IRQHandler"
  , VectorEntry.handler "EXTI2_IRQHandler"
  , VectorEntry.handler "EXTI3_IRQHandler"
  , VectorEntry.handler "EXTI4_IRQHandler"
  , VectorEntry.handler "DMA1_Stream0_IRQHandler"
  , VectorEntry.handler "DMA1_Stream1_IRQHandler"
  , VectorEntry.handler "DMA1_Stream2_IRQHandler"
  , VectorEntry.handler "DMA1_Stream3_IRQHandler"
  , VectorEntry.handler "DMA1_Stream4_IRQHandler"
  , VectorEntry.handler "DMA1_Stream5_IRQHandler"
  , VectorEntry.handler "DMA1_Stream6_IRQHandler"
  , VectorEntry.handler "ADC_IRQHandler"
  , VectorEntry.reserved
  , VectorEntry.reserved
  , VectorEntry.reserved
  , VectorEntry.reserved
  , VectorEntry.handler "EXTI9_5_IRQHandler"
  , VectorEntry.handler "TIM1_BRK_TIM9_IRQHandler"
  , VectorEntry.handler "TIM1_UP_TIM10_IRQHandler"
  , VectorEntry.reserved
  , VectorEntry.reserved
  , VectorEntry.handler "TIM2_IRQHandler"
  , VectorEntry.handler "TIM3_IRQHandler"
  , VectorEntry.handler "TIM4_IRQHandler"
  , VectorEntry.handler "I2C1_EV_IRQHandler"
  , VectorEntry.handler "I2C1_ER_IRQHandler"
  , VectorEntry.handler "I2C2_EV_IRQHandler"
  , VectorEntry.handler "I2C2_ER_IRQHandler"
  , VectorEntry.handler "SPI1_IRQHandler"
  , VectorEntry.handler "SPI2_IRQHandler"
  , VectorEntry.handler "USART1_IRQHandler"
  , VectorEntry.handler "USART2_IRQHandler"
  , VectorEntry.handler "USART3_IRQHandler"
  ]

/-!
UART TX ring buffer.  src/ contains only the class declaration
(hal/uart.hpp: m_txBuffer[UART_BUFFER_SIZE] with volatile u16 m_txHead,
m_txTail); the transmitIT body is not in the repository sources, so the
operational behaviour is modelled from the spec.
-/

/-- Modelled from the spec: the UART TX state declared in hal/uart.hpp
(m_txBuffer, m_txHead, m_txTail) together with the TX-empty interrupt-enable
flag and the data register that spec section 4.4 says transmitIT writes
directly when the interrupt is off. -/
structure UARTTxState where
  txBuffer : Nat → Nat
  txHead : Nat
  txTail : Nat
  txIntEnabled : Bool
  dataReg : Nat

/-- A UART with nothing buffered, TX interrupt off. -/
def emptyTxState : UARTTxState :=
  { txBuffer := fun _ => 0, txHead := 0, txTail := 0
    txIntEnabled := false, dataReg := 0 }

/-- Number of bytes currently buffered, derived from the head and tail
indices of the ring. -/
def ringCount (s : UARTTxState) : Nat :=
  (s.txHead + UART_BUFFER_SIZE - s.txTail) % UART_BUFFER_SIZE

/-- The ring-empty predicate from the spec: empty iff head == tail. -/
def ringEmpty (s : UARTTxState) : Bool :=
  s.txHead == s.txTail

/-- The ring-full predicate from the spec: full iff
(head+1) mod N == tail. -/
def ringFull (s : UARTTxState) : Bool :=
  (s.txHead + 1) % UART_BUFFER_SIZE == s.txTail

/-- Modelled from the spec: enqueue one byte at head unless the ring is
full. -/
def enqueueByte (s : UARTTxState) (b : Nat) : Option UARTTxState :=
  if (s.txHead + 1) % UART_BUFFER_SIZE = s.txTail then none
  else some { s with
    txBuffer := writeWord s.txBuffer s.txHead b
    txHead := (s.txHead + 1) % UART_BUFFER_SIZE }

/-- Modelled from the spec: enqueue a byte sequence, failing if any byte
finds the ring full. -/
def enqueueBytes (s : UARTTxState) : List Nat → Option UARTTxState
  | [] => some s
  | b :: rest =>
    match enqueueByte s b with
    | none => none
    | some t => enqueueBytes t rest

/-- Modelled from the spec (section 4.4, transmitIT): if the TX-empty
interrupt is not currently enabled, the first byte is written directly to
the data register and the interrupt is enabled, the remaining bytes are
enqueued; otherwise all bytes are enqueued.  Returns NoMemory, leaving the
state unchanged, if the buffer cannot accept the bytes. -/
def UART.transmitIT (s : UARTTxState) (data : List Nat) :
    Status × UARTTxState :=
  if s.txIntEnabled then
    match enqueueBytes s data with
    | none => (Status.NoMemory, s)
    | some t => (Status.Ok, t)
  else
    match data with
    | [] => (Status.Ok, s)
    | b :: rest =>
      let s1 := { s with dataReg := b, txIntEnabled := true }
      match enqueueBytes s1 rest with
      | none => (Status.NoMemory, s)
      | some t => (Status.Ok, t)

/-!
Helper lemmas.
-/

/-- The tick counter after n interrupts equals (t0 + n) mod 2^32. -/
lemma ticksAfter_eq (t0 : Nat) (h : t0 < U32_MOD) :
    ∀ n, ticksAfter t0 n = (t0 + n) % U32_MOD := by
  intro n
  induction n with
  | zero => simp [ticksAfter, Nat.mod_eq_of_lt h]
  | succ n ih =>
    simp only [ticksAfter, SysTick_Handler, ih]
    unfold U32_MOD
    omega

/-- The delayMs loop exits at the first poll satisfying the wrap-safe
condition, provided the fuel reaches it. -/
lemma delayMsLoop_exits_first (ticks : Nat → Nat) (start ms : Nat) :
    ∀ fuel i n, ms ≤ sub32 (ticks (i + n)) start →
    (∀ m, m < n → sub32 (ticks (i + m)) start < ms) →
    n < fuel →
    delayMsLoop ticks start ms i fuel = some (i + n) := by
  intro fuel
  induction fuel with
  | zero => intro i n _ _ h3; omega
  | succ fuel ih =>
    intro i n h1 h2 h3
    unfold delayMsLoop
    by_cases hc : ms ≤ sub32 (ticks i) start
    · have hn : n = 0 := by
        by_contra hne
        have hm := h2 0 (by omega)
        simp only [Nat.add_zero] at hm
        omega
      subst hn
      simp [hc]
    · have hn : n ≠ 0 := by
        intro h0
        subst h0
        simp only [Nat.add_zero] at h1
        exact hc h1
      obtain ⟨n0, rfl⟩ : ∃ n0, n = n0 + 1 := ⟨n - 1, by omega⟩
      rw [if_neg hc]
      have e1 : i + 1 + n0 = i + (n0 + 1) := by omega
      have h1a : ms ≤ sub32 (ticks (i + 1 + n0)) start := by rw [e1]; exact h1
      have h2a : ∀ m, m < n0 → sub32 (ticks (i + 1 + m)) start < ms := by
        intro m hm
        have := h2 (m + 1) (by omega)
        rwa [show i + (m + 1) = i + 1 + m by omega] at this
      rw [ih (i + 1) n0 h1a h2a (by omega), e1]

/-- Pointwise characterisation of the startup copy loop: inside the
destination region the value comes from the matching source offset, outside
it memory is untouched.  Requires the source and destination regions to be
disjoint, as flash and RAM are. -/
lemma copyWords_get :
    ∀ (n src dst : Nat) (mem : Nat → Nat) (a : Nat),
    src + n ≤ dst ∨ dst + n ≤ src →
    copyWords mem src dst n a =
      if dst ≤ a ∧ a < dst + n then mem (src + (a - dst)) else mem a := by
  intro n
  induction n with
  | zero =>
    intro src dst mem a _
    rw [if_neg (by omega)]
    rfl
  | succ n ih =>
    intro src dst mem a hdisj
    unfold copyWords
    rw [ih (src + 1) (dst + 1) _ a (by omega)]
    by_cases h1 : dst + 1 ≤ a ∧ a < dst + 1 + n
    · rw [if_pos h1, if_pos (by omega)]
      unfold writeWord
      rw [if_neg (by omega)]
      congr 1
      omega
    · rw [if_neg h1]
      unfold writeWord
      by_cases h2 : a = dst
      · rw [if_pos h2, if_pos (by omega)]
        congr 1
        omega
      · rw [if_neg h2, if_neg (by omega)]

/-- Pointwise characterisation of the startup zero-fill loop. -/
lemma zeroWords_get :
    ∀ (n dst : Nat) (mem : Nat → Nat) (a : Nat),
    zeroWords mem dst n a = if dst ≤ a ∧ a < dst + n then 0 else mem a := by
  intro n
  induction n with
  | zero =>
    intro dst mem a
    rw [if_neg (by omega)]
    rfl
  | succ n ih =>
    intro dst mem a
    unfold zeroWords
    rw [ih (dst + 1) _ a]
    by_cases h1 : dst + 1 ≤ a ∧ a < dst + 1 + n
    · rw [if_pos h1, if_pos (by omega)]
    · rw [if_neg h1]
      unfold writeWord
      by_cases h2 : a = dst
      · rw [if_pos h2, if_pos (by omega)]
      · rw [if_neg h2, if_neg (by omega)]

/-- Enqueueing a byte list succeeds when the ring has room for it, and the
head index advances by the list length modulo the buffer size. -/
lemma enqueueBytes_ok :
    ∀ (data : List Nat) (s : UARTTxState),
    s.txHead < 256 → s.txTail < 256 → ringCount s + data.length ≤ 255 →
    ∃ t, enqueueBytes s data = some t ∧
      t.txHead = (s.txHead + data.length) % 256 ∧
      t.txTail = s.txTail ∧ t.txIntEnabled = s.txIntEnabled := by
  intro data
  induction data with
  | nil =>
    intro s hh _ _
    exact ⟨s, rfl, by simp [Nat.mod_eq_of_lt hh], rfl, rfl⟩
  | cons b rest ih =>
    intro s hh ht hcap
    simp only [ringCount, UART_BUFFER_SIZE, List.length_cons] at hcap
    have hnotfull : ¬ ((s.txHead + 1) % UART_BUFFER_SIZE = s.txTail) := by
      simp only [UART_BUFFER_SIZE]
      omega
    unfold enqueueBytes enqueueByte
    rw [if_neg hnotfull]
    simp only [UART_BUFFER_SIZE]
    obtain ⟨t, heq, hth, htt, hti⟩ :=
      ih { s with
            txBuffer := writeWord s.txBuffer s.txHead b
            txHead := (s.txHead + 1) % 256 }
        (by simp; omega) (by simp [ht])
        (by simp only [ringCount, UART_BUFFER_SIZE]; omega)
    refine ⟨t, heq, ?_, by simp [htt], by simp [hti]⟩
    rw [hth]
    simp only [List.length_cons]
    simp
    omega

/-- Enqueueing a byte list fails when it exceeds the free space of the
ring. -/
lemma enqueueBytes_fail :
    ∀ (data : List Nat) (s : UARTTxState),
    s.txHead < 256 → s.txTail < 256 → 255 < ringCount s + data.length →
    enqueueBytes s data = none := by
  intro data
  induction data with
  | nil =>
    intro s hh ht hcap
    simp only [ringCount, UART_BUFFER_SIZE, List.length_nil] at hcap
    omega
  | cons b rest ih =>
    intro s hh ht hcap
    simp only [ringCount, UART_BUFFER_SIZE, List.length_cons] at hcap
    unfold enqueueBytes enqueueByte
    by_cases hfull : (s.txHead + 1) % UART_BUFFER_SIZE = s.txTail
    · rw [if_pos hfull]
    · rw [if_neg hfull]
      simp only [UART_BUFFER_SIZE] at hfull ⊢
      exact ih _ (by simp; omega) (by simp [ht])
        (by simp only [ringCount, UART_BUFFER_SIZE]; omega)

/-- transmitIT with the TX interrupt off writes the first byte to the data
register, enables the interrupt, and enqueues the rest. -/
lemma transmitIT_disabled (s : UARTTxState) (hint : s.txIntEnabled = false)
    (b : Nat) (rest : List Nat) :
    UART.transmitIT s (b :: rest) =
      match enqueueBytes { s with dataReg := b, txIntEnabled := true } rest with
      | none => (Status.NoMemory, s)
      | some t => (Status.Ok, t) := by
  unfold UART.transmitIT
  rw [if_neg (by simp [hint])]

/-!
Claim theorems.
-/

/-- C1: Reset_Handler copies the initialized-data image word by word from
_sidata into [_sdata, _edata), zero-fills [_sbss, _ebss) (the zero-fill runs
second, so it wins on any overlap), executes the pre-init then the init
constructor arrays in order, calls main exactly once and then spins forever;
vector[0] of g_pfnVectors is the stack-top symbol and vector[1] is
Reset_Handler.  The flash image region is disjoint from the data run
region. -/
theorem reset_handler_boot_sequence (L : LinkerLayout)
    (pre ini : List Nat) (mem0 : Nat → Nat) (a : Nat)
    (hdisj : L.sidata + (L.edata - L.sdata) ≤ L.sdata ∨
             L.sdata + (L.edata - L.sdata) ≤ L.sidata) :
    (Reset_Handler L pre ini mem0).mem a =
      (if L.sbss ≤ a ∧ a < L.ebss then 0
       else if L.sdata ≤ a ∧ a < L.edata then mem0 (L.sidata + (a - L.sdata))
       else mem0 a)
    ∧ (Reset_Handler L pre ini mem0).ctorCalls = pre ++ ini
    ∧ (Reset_Handler L pre ini mem0).mainCalls = 1
    ∧ (Reset_Handler L pre ini mem0).spinsForever = true
    ∧ g_pfnVectors[0]? = some VectorEntry.stackTop
    ∧ g_pfnVectors[1]? = some (VectorEntry.handler "Reset_Handler") := by
  refine ⟨?_, rfl, rfl, rfl, rfl, rfl⟩
  show zeroWords (copyWords mem0 L.sidata L.sdata (L.edata - L.sdata))
      L.sbss (L.ebss - L.sbss) a = _
  rw [zeroWords_get, copyWords_get _ _ _ _ _ hdisj]
  by_cases hb : L.sbss ≤ a ∧ a < L.ebss
  · rw [if_pos (by omega), if_pos hb]
  · rw [if_neg (by omega), if_neg hb]
    by_cases hc : L.sdata ≤ a ∧ a < L.edata
    · rw [if_pos (by omega), if_pos hc]
    · rw [if_neg (by omega), if_neg hc]

/-- C1 witness: a stub image whose one data word is 0xDEADBEEF at flash
word-index 100, data region [0, 1), bss region [1, 3): after the handler the
data word is 0xDEADBEEF. -/
theorem reset_handler_boot_sequence_witness :
    ((⟨100, 0, 1, 1, 3⟩ : LinkerLayout).sidata +
       ((⟨100, 0, 1, 1, 3⟩ : LinkerLayout).edata -
        (⟨100, 0, 1, 1, 3⟩ : LinkerLayout).sdata) ≤
       (⟨100, 0, 1, 1, 3⟩ : LinkerLayout).sdata ∨
     (⟨100, 0, 1, 1, 3⟩ : LinkerLayout).sdata +
       ((⟨100, 0, 1, 1, 3⟩ : LinkerLayout).edata -
        (⟨100, 0, 1, 1, 3⟩ : LinkerLayout).sdata) ≤
       (⟨100, 0, 1, 1, 3⟩ : LinkerLayout).sidata)
    ∧ ((Reset_Handler ⟨100, 0, 1, 1, 3⟩ [10] [20, 21]
          (fun x => if x = 100 then 0xDEADBEEF else 7)).mem 0 =
        (if (1 : Nat) ≤ 0 ∧ (0 : Nat) < 3 then 0
         else if (0 : Nat) ≤ 0 ∧ (0 : Nat) < 1 then
           (fun x => if x = 100 then 0xDEADBEEF else 7) (100 + (0 - 0))
         else (fun x => if x = 100 then 0xDEADBEEF else 7) 0)
      ∧ (Reset_Handler ⟨100, 0, 1, 1, 3⟩ [10] [20, 21]
          (fun x => if x = 100 then 0xDEADBEEF else 7)).ctorCalls =
          [10] ++ [20, 21]
      ∧ (Reset_Handler ⟨100, 0, 1, 1, 3⟩ [10] [20, 21]
          (fun x => if x = 100 then 0xDEADBEEF else 7)).mainCalls = 1
      ∧ (Reset_Handler ⟨100, 0, 1, 1, 3⟩ [10] [20, 21]
          (fun x => if x = 100 then 0xDEADBEEF else 7)).spinsForever = true
      ∧ g_pfnVectors[0]? = some VectorEntry.stackTop
      ∧ g_pfnVectors[1]? = some (VectorEntry.handler "Reset_Handler")) :=
  ⟨by decide,
   reset_handler_boot_sequence ⟨100, 0, 1, 1, 3⟩ [10] [20, 21]
     (fun x => if x = 100 then 0xDEADBEEF else 7) 0 (by decide)⟩

/-- C2: for every starting tick value and every ms, delayMs returns exactly
at the first poll whose unsigned 32-bit difference (current tick - start
tick) reaches ms, for any sequence of tick reads; the wait is wrap-safe
because the comparison uses sub32. -/
theorem delayMs_wrap_safe_first_exit (ticks : Nat → Nat)
    (start ms n fuel : Nat)
    (hfirst : ms ≤ sub32 (ticks n) start)
    (hbefore : ∀ m, m < n → sub32 (ticks m) start < ms)
    (hfuel : n < fuel) :
    System.delayMs ticks start ms fuel = some n := by
  unfold System.delayMs
  have := delayMsLoop_exits_first ticks start ms fuel 0 n
    (by simpa using hfirst) (by simpa using hbefore) hfuel
  simpa using this

/-- C2 witness: a delay of 32 ms started at tick 0xFFFFFFF0, with the
counter advancing one increment per poll and wrapping through 0, completes
at poll 32. -/
theorem delayMs_wrap_safe_first_exit_witness :
    System.delayMs (fun k => (4294967280 + k) % U32_MOD) 4294967280 32 33 =
      some 32 :=
  delayMs_wrap_safe_first_exit (fun k => (4294967280 + k) % U32_MOD)
    4294967280 32 32 33 (by decide) (by decide) (by decide)

/-- C3: for every starting PRIMASK value, two nested CriticalSection guards
leave the mask equal to its value before the outermost entry, and the inner
destructor restores the masked state 1 (set by cpsid i), not the enabled
state. -/
theorem criticalSection_nesting_restores_mask (p0 : Nat) :
    (nestedCriticalSections p0).2 = p0
    ∧ (nestedCriticalSections p0).1 = 1
    ∧ (disableInterrupts p0).2 = 1 := by
  exact ⟨rfl, rfl, rfl⟩

/-- C4: each SysTick_Handler invocation increments the tick counter by
exactly 1 modulo 2^32; getTicks is the identity read of the counter; after n
interrupts the counter is (t0 + n) mod 2^32, so a later foreground read is
smaller than an earlier one only when the counter crossed a 2^32 wraparound
boundary between the two reads. -/
theorem systick_tick_monotonic (t0 n m k : Nat) (h : t0 < U32_MOD) :
    SysTick_Handler t0 = (t0 + 1) % U32_MOD
    ∧ System.getTicks (ticksAfter t0 n) = (t0 + n) % U32_MOD
    ∧ (System.getTicks (ticksAfter t0 (m + k)) <
         System.getTicks (ticksAfter t0 m) →
       (t0 + m) / U32_MOD < (t0 + m + k) / U32_MOD) := by
  refine ⟨rfl, ticksAfter_eq t0 h n, ?_⟩
  rw [show System.getTicks (ticksAfter t0 (m + k)) = (t0 + (m + k)) % U32_MOD
      from ticksAfter_eq t0 h (m + k),
    show System.getTicks (ticksAfter t0 m) = (t0 + m) % U32_MOD
      from ticksAfter_eq t0 h m]
  unfold U32_MOD
  omega

/-- C4 witness: from the counter value 0xFFFFFFFF one interrupt wraps the
counter to 0, and the backward-looking read certifies a wraparound
crossing. -/
theorem systick_tick_monotonic_witness :
    4294967295 < U32_MOD
    ∧ (SysTick_Handler 4294967295 = (4294967295 + 1) % U32_MOD
       ∧ System.getTicks (ticksAfter 4294967295 1) =
           (4294967295 + 1) % U32_MOD
       ∧ (System.getTicks (ticksAfter 4294967295 (0 + 1)) <
            System.getTicks (ticksAfter 4294967295 0) →
          (4294967295 + 0) / U32_MOD < (4294967295 + 0 + 1) / U32_MOD)) :=
  ⟨by decide, systick_tick_monotonic 4294967295 1 0 1 (by decide)⟩

/-- C5: System::init programs the SysTick reload register to
(168000000 / 1000) - 1 = 167999, clears the current-value register, sets the
CSR enable, interrupt-enable and processor-clock bits (value 7), and returns
Ok. -/
theorem system_init_systick_config (r : Regs) :
    (System.init r).1 = Status.Ok
    ∧ ((System.init r).2).systRvr = 167999
    ∧ ((System.init r).2).systRvr = SYSTEM_CLOCK_HZ / TICK_RATE_HZ - 1
    ∧ ((System.init r).2).systCvr = 0
    ∧ ((System.init r).2).systCsr = 7
    ∧ (((System.init r).2).systCsr).testBit 0 = true
    ∧ (((System.init r).2).systCsr).testBit 1 = true
    ∧ (((System.init r).2).systCsr).testBit 2 = true := by
  refine ⟨rfl, ?_, ?_, ?_, ?_, ?_, ?_, ?_⟩ <;>
    simp [System.init, System.initNvic, System.initSysTick, System.initClocks,
      SYSTEM_CLOCK_HZ, TICK_RATE_HZ] <;> decide

/-- C6 counterexample: the busy-wait iteration count of delayUs is not
monotone over all u32 arguments: the 32-bit product 168 * us wraps between
us = 25565281 and us = 25565282, so the larger argument yields a shorter
wait. -/
theorem delayUs_monotone_counterexample :
    25565281 ≤ 25565282
    ∧ ¬ (delayUsCycles 25565281 ≤ delayUsCycles 25565282) := by
  decide

/-- C6 amended: the busy-wait length of delayUs is monotone in its argument
as long as the 32-bit product (SYSTEM_CLOCK_HZ / 1000000) * us2 does not
overflow, i.e. for us2 up to 25565281. -/
theorem delayUs_monotone_no_overflow (us1 us2 : Nat) (h : us1 ≤ us2)
    (hov : SYSTEM_CLOCK_HZ / 1000000 * us2 < U32_MOD) :
    delayUsCycles us1 ≤ delayUsCycles us2 := by
  unfold SYSTEM_CLOCK_HZ U32_MOD at hov
  unfold delayUsCycles SYSTEM_CLOCK_HZ U32_MOD
  have h1 : 168000000 / 1000000 * us1 < 2 ^ 32 :=
    lt_of_le_of_lt (Nat.mul_le_mul_left _ h) hov
  rw [Nat.mod_eq_of_lt h1, Nat.mod_eq_of_lt hov]
  exact Nat.div_le_div_right (Nat.mul_le_mul_left _ h)

/-- C6 amended witness: monotone at 3 <= 5. -/
theorem delayUs_monotone_no_overflow_witness :
    3 ≤ 5
    ∧ SYSTEM_CLOCK_HZ / 1000000 * 5 < U32_MOD
    ∧ delayUsCycles 3 ≤ delayUsCycles 5 :=
  ⟨by decide, by decide,
   delayUs_monotone_no_overflow 3 5 (by decide) (by decide)⟩

/-- C7 (spec-modelled): the TX ring buffer has fixed capacity
UART_BUFFER_SIZE = 256 with empty iff head == tail and full iff
(head+1) mod 256 == tail; with no ISR drain, transmitIT of a 256-byte
sequence from the reset state succeeds (one byte goes directly to the data
register, 255 into the ring) and a subsequent 257th byte returns
NoMemory. -/
theorem uart_tx_ring_capacity (data : List Nat) (b : Nat) (s : UARTTxState)
    (hlen : data.length = 256) (hh : s.txHead < 256) (ht : s.txTail < 256) :
    UART_BUFFER_SIZE = 256
    ∧ (UART.transmitIT emptyTxState data).1 = Status.Ok
    ∧ (UART.transmitIT (UART.transmitIT emptyTxState data).2 [b]).1 =
        Status.NoMemory
    ∧ (ringEmpty s = true ↔ ringCount s = 0)
    ∧ (ringFull s = true ↔ ringCount s = 255)
    ∧ ((enqueueByte s b).isNone = true ↔ ringFull s = true) := by
  obtain ⟨b0, rest, rfl⟩ : ∃ b0 rest, data = b0 :: rest := by
    cases data with
    | nil => simp at hlen
    | cons x xs => exact ⟨x, xs, rfl⟩
  have hrest : rest.length = 255 := by simpa using hlen
  obtain ⟨t, heq, hth, htt, hti⟩ :=
    enqueueBytes_ok rest
      { emptyTxState with dataReg := b0, txIntEnabled := true }
      (by simp [emptyTxState]) (by simp [emptyTxState])
      (by simp [ringCount, UART_BUFFER_SIZE, emptyTxState, hrest])
  have h1 : UART.transmitIT emptyTxState (b0 :: rest) = (Status.Ok, t) := by
    rw [transmitIT_disabled emptyTxState rfl b0 rest, heq]
  have hcount : ringCount t = 255 := by
    unfold ringCount UART_BUFFER_SIZE
    rw [hth, htt]
    simp [emptyTxState, hrest]
  have h2 : (UART.transmitIT t [b]).1 = Status.NoMemory := by
    unfold UART.transmitIT
    rw [if_pos (by rw [hti])]
    rw [enqueueBytes_fail [b] t
      (by rw [hth]; simp [emptyTxState, hrest])
      (by rw [htt]; simp [emptyTxState])
      (by rw [hcount]; simp)]
  refine ⟨rfl, by rw [h1], by rw [h1]; exact h2, ?_, ?_, ?_⟩
  · unfold ringEmpty ringCount UART_BUFFER_SIZE
    simp only [beq_iff_eq]
    omega
  · unfold ringFull ringCount UART_BUFFER_SIZE
    simp only [beq_iff_eq]
    omega
  · unfold enqueueByte ringFull UART_BUFFER_SIZE
    by_cases hc : (s.txHead + 1) % 256 = s.txTail
    · simp [hc]
    · simp [hc]

set_option maxRecDepth 8000 in
/-- C7 witness: 256 bytes 0xAB from the reset state succeed; one further
byte returns NoMemory; the invariants instantiated at the reset state. -/
theorem uart_tx_ring_capacity_witness :
    (List.replicate 256 171).length = 256
    ∧ emptyTxState.txHead < 256
    ∧ emptyTxState.txTail < 256
    ∧ (UART_BUFFER_SIZE = 256
       ∧ (UART.transmitIT emptyTxState (List.replicate 256 171)).1 =
           Status.Ok
       ∧ (UART.transmitIT
            (UART.transmitIT emptyTxState (List.replicate 256 171)).2
            [7]).1 = Status.NoMemory
       ∧ (ringEmpty emptyTxState = true ↔ ringCount emptyTxState = 0)
       ∧ (ringFull emptyTxState = true ↔ ringCount emptyTxState = 255)
       ∧ ((enqueueByte emptyTxState 7).isNone = true ↔
            ringFull emptyTxState = true)) :=
  ⟨by decide, by decide, by decide,
   uart_tx_ring_capacity (List.replicate 256 171) 7 emptyTxState
     (by decide) (by decide) (by decide)⟩

/-- C8: deepSleep sets SLEEPDEEP (bit 2 of SCR) for the sleep window and on
return bit 2 is clear while every other SCR bit keeps its prior value. -/
theorem deepSleep_scr_frame (scr i : Nat) (hscr : scr < U32_MOD)
    (hi : i ≠ 2) :
    (deepSleepDuring scr).testBit 2 = true
    ∧ (System.deepSleep scr).testBit 2 = false
    ∧ (System.deepSleep scr).testBit i = scr.testBit i := by
  unfold U32_MOD at hscr
  unfold System.deepSleep deepSleepDuring U32_MOD
  refine ⟨?_, ?_, ?_⟩
  · rw [Nat.testBit_or, Nat.one_shiftLeft, Nat.testBit_two_pow_self]
    simp
  · rw [Nat.testBit_and, Nat.testBit_xor, Nat.testBit_or, Nat.one_shiftLeft,
      Nat.testBit_two_pow_self, Nat.testBit_two_pow_sub_one]
    simp
  · rw [Nat.testBit_and, Nat.testBit_xor, Nat.testBit_or, Nat.one_shiftLeft,
      Nat.testBit_two_pow_sub_one, Nat.testBit_two_pow,
      decide_eq_false (show ¬ (2 = i) by omega)]
    by_cases hlt : i < 32
    · rw [decide_eq_true hlt]
      simp
    · have hz : scr.testBit i = false :=
        Nat.testBit_lt_two_pow
          (lt_of_lt_of_le hscr (Nat.pow_le_pow_right (by norm_num) (by omega)))
      rw [decide_eq_false hlt, hz]
      simp

/-- C8 witness: from SCR = 0xFFFFFFFF (all bits set) the call returns with
bit 2 clear and bit 0 preserved. -/
theorem deepSleep_scr_frame_witness :
    4294967295 < U32_MOD
    ∧ (0 : Nat) ≠ 2
    ∧ ((deepSleepDuring 4294967295).testBit 2 = true
       ∧ (System.deepSleep 4294967295).testBit 2 = false
       ∧ (System.deepSleep 4294967295).testBit 0 =
           (4294967295 : Nat).testBit 0) :=
  ⟨by decide, by decide,
   deepSleep_scr_frame 4294967295 0 (by decide) (by decide)⟩

/-- C9: getUniqueId copies exactly the three consecutive 32-bit words at
0x1FFF7A10, 0x1FFF7A14, 0x1FFF7A18 into id[0], id[1], id[2] in ascending
address order and leaves every other element of the output untouched. -/
theorem getUniqueId_copies_three_words (mem id : Nat → Nat) (i : Nat) :
    System.getUniqueId mem id i =
      if i = 0 then mem 0x1FFF7A10
      else if i = 1 then mem 0x1FFF7A14
      else if i = 2 then mem 0x1FFF7A18
      else id i := by
  unfold System.getUniqueId writeWord
  by_cases h2 : i = 2 <;> by_cases h1 : i = 1 <;> by_cases h0 : i = 0 <;>
    simp [h0, h1, h2]

/-- C10: getSystemClock always returns the compile-time constant 168000000
for every register state, initClocks is the identity, and running init does
not change the reported clock. -/
theorem getSystemClock_constant (r : Regs) :
    System.getSystemClock r = 168000000
    ∧ System.initClocks r = r
    ∧ System.getSystemClock ((System.init r).2) = System.getSystemClock r :=
  ⟨rfl, rfl, rfl⟩
